import Mathlib

/-!
Shallow embedding of the bolt.diy request-orchestration layer:
`app/lib/.server/llm/stream-text.ts` (prompt assembly, message
preprocessing, provider/model resolution), the persisted settings store,
and the `ModelSelector` component's store operations.
-/

namespace Bolt

/-! ## JS-style helpers -/

/-- JS `x || d` for an optional string (`undefined` and `""` are falsy). -/
def jsOrStr (x : Option String) (d : String) : String :=
  match x with
  | some s => if s = "" then d else s
  | none => d

/-! ## Messages -/

/-- Message roles occurring in the chat history (`user`, `assistant`, and
any other role, represented by `system`). -/
inductive Role where
  | user
  | assistant
  | system
deriving DecidableEq, Repr

/-- A chat message: role plus textual content. -/
structure Msg where
  role : Role
  content : String
deriving DecidableEq, Repr

/-! ## String-scanning primitives

The regex replacements in `stream-text.ts` all have the shape
`open …lazy… close`; leftmost-shortest matching over such a pattern is:
find the first occurrence of `open`, then the first occurrence of `close`
after it. `splitAtPat` locates the first occurrence of a literal pattern. -/

/-- Whether the literal pattern `pat` matches at the front of `l`. -/
def matchesFront : List Char → List Char → Bool
  | [], _ => true
  | _ :: _, [] => false
  | p :: ps, c :: cs => p == c && matchesFront ps cs

/-- Splits `l` at the first occurrence of `pat`, returning the part before
the occurrence and the part after it; `none` when `pat` does not occur. -/
def splitAtPat (pat : List Char) : List Char → Option (List Char × List Char)
  | [] => if pat.isEmpty then some ([], []) else none
  | c :: rest =>
    if matchesFront pat (c :: rest) then
      some ([], (c :: rest).drop pat.length)
    else
      match splitAtPat pat rest with
      | some (b, a) => some (c :: b, a)
      | none => none

/-- One non-global lazy-block replacement, as performed by JS
`content.replace(/open.*?close/s, repl)`: the span from the first
occurrence of `op` to the first following occurrence of `cl` is replaced
by `repl`; if no complete block exists the input is unchanged. -/
def replaceFirstBlockL (op cl repl l : List Char) : List Char :=
  match splitAtPat op l with
  | none => l
  | some (pre, rest1) =>
    match splitAtPat cl rest1 with
    | none => l
    | some (_mid, post) => pre ++ repl ++ post

/-- Fueled worker for the global lazy-block replacement. -/
def replaceAllBlocksAux (op cl repl : List Char) : Nat → List Char → List Char
  | 0, l => l
  | fuel + 1, l =>
    match splitAtPat op l with
    | none => l
    | some (pre, rest1) =>
      match splitAtPat cl rest1 with
      | none => l
      | some (_mid, post) => pre ++ repl ++ replaceAllBlocksAux op cl repl fuel post

/-- Global lazy-block replacement, as performed by JS
`content.replace(/open[\s\S]*?close/g, repl)`. -/
def replaceAllBlocksL (op cl repl l : List Char) : List Char :=
  replaceAllBlocksAux op cl repl l.length l

/-- String wrapper for `replaceFirstBlockL`. -/
def replaceFirstBlock (s op cl repl : String) : String :=
  String.mk (replaceFirstBlockL op.data cl.data repl.data s.data)

/-- String wrapper for `replaceAllBlocksL`. -/
def replaceAllBlocks (s op cl repl : String) : String :=
  String.mk (replaceAllBlocksL op.data cl.data repl.data s.data)

/-- Number of (possibly overlapping) occurrences of `pat` in `l`. -/
def countSub (pat : List Char) : List Char → Nat
  | [] => 0
  | c :: rest => (if matchesFront pat (c :: rest) then 1 else 0) + countSub pat rest

/-- Number of positions of `s` at which the pattern `pat` occurs. -/
def countOccurrences (s pat : String) : Nat :=
  countSub pat.data s.data

/-- ASCII whitespace, the fragment of JS `String.prototype.trim` relevant
to the strings handled here. -/
def isWS (c : Char) : Bool :=
  c = ' ' || c = '\n' || c = '\t' || c = '\r'

/-- Trim whitespace from both ends of a character list. -/
def trimChars (l : List Char) : List Char :=
  ((l.dropWhile isWS).reverse.dropWhile isWS).reverse

/-- Trim whitespace from both ends of a string (JS `content.trim()`). -/
def trimS (s : String) : String :=
  String.mk (trimChars s.data)

/-! ## The patch-mode system prompt (`getPatchPrompt`) -/

/-- The patch-mode system prompt of `stream-text.ts`, a template literal
interpolating `modificationTagName` (three times) and `cwd` (once). -/
def getPatchPrompt (modificationTagName cwd : String) : String :=
  "You are an expert AI programmer specializing in code modification. Your task is to act as an automated code editing tool.\nYou will be given a user request and the content of relevant files.\nYour SOLE an ONLY output format MUST be a unified diff format, contained within a specific XML-like tag.\n\nYou MUST follow these rules:\n1.  Analyze the user\x27s request to understand the required changes.\n2.  Analyze the provided file content within the \x27CONTEXT BUFFER\x27.\n3.  Generate a set of changes in the unified diff format.\n4.  Wrap the entire response in a <" ++
  modificationTagName ++
  "> tag.\n5.  Inside this tag, each file modification must be wrapped in a <diff path=\"path/to/file\"> tag.\n6.  The content inside the <diff> tag must be a valid unified diff, starting with \x27@@ ... @@\x27.\n7.  DO NOT include the \x27---\x27 or \x27+++\x27 file headers in the diff content. The patch application system will handle this.\n8.  DO NOT output any conversational text, explanations, or code blocks. Your response must ONLY be the diff itself.\n\nHere is an example of a PERFECT response:\n\n<" ++
  modificationTagName ++
  ">\n<diff path=\"src/components/ui/Button.tsx\">\n@@ -10,7 +10,7 @@\n   return (\n     <button\n       className=\x7bcn(buttonVariants(\x7b variant, size, className \x7d))\x7d\n-      ref=\x7bref\x7d\n+      ref=\x7bref\x7d // Add a reference to the button\n       \x7b...props\x7d\n     />\n   );\n</diff>\n</" ++
  modificationTagName ++
  ">\n\nBegin! The user\x27s files are located in the \x27" ++
  cwd ++
  "\x27 directory."

/-! ## Message preprocessing (`streamText`, lines 108-131)

`extractPropertiesFromMessage` lives in `./utils`, outside the sources at
hand; it is passed in as a function returning `(model, provider, content)`
for a user message. -/

/-- Opening marker matched by the thought-div regex
`/<div class=\\"__boltThought__\\">.*?<\/div>/s` (the pattern contains a
literal backslash before each quote). -/
def boltThoughtOpen : String := "<div class=\\\"__boltThought__\\\">"

/-- Closing marker of the thought-div regex. -/
def boltThoughtClose : String := "</div>"

/-- Opening marker of the think-block regex `/<think>.*?<\/think>/s`. -/
def thinkOpen : String := "<think>"

/-- Closing marker of the think-block regex. -/
def thinkClose : String := "</think>"

/-- Opening marker of the package-lock regex
`/<boltAction type="file" filePath="package-lock\.json">[\s\S]*?<\/boltAction>/g`. -/
def packageLockOpen : String := "<boltAction type=\"file\" filePath=\"package-lock.json\">"

/-- Closing marker of the package-lock regex. -/
def packageLockClose : String := "</boltAction>"

/-- Replacement text for a collapsed package-lock block. -/
def packageLockPlaceholder : String := "[package-lock.json content removed]"

/-- The assistant branch of the message map in `streamText`: remove the
first thought-div block, remove the first think block, collapse every
package-lock block, then trim. -/
def processAssistantContent (content : String) : String :=
  let c1 := replaceFirstBlock content boltThoughtOpen boltThoughtClose ""
  let c2 := replaceFirstBlock c1 thinkOpen thinkClose ""
  let c3 := replaceAllBlocks c2 packageLockOpen packageLockClose packageLockPlaceholder
  trimS c3

/-- One step of the message map: the accumulator carries
`(currentModel, currentProvider, processed messages so far)`. -/
def preprocessStep (extract : Msg → String × String × String)
    (acc : String × String × List Msg) (m : Msg) : String × String × List Msg :=
  match m.role with
  | .user =>
    let e := extract m
    (e.1, e.2.1, acc.2.2 ++ [⟨.user, e.2.2⟩])
  | .assistant =>
    (acc.1, acc.2.1, acc.2.2 ++ [⟨.assistant, processAssistantContent m.content⟩])
  | .system =>
    (acc.1, acc.2.1, acc.2.2 ++ [m])

/-- The message-preprocessing loop of `streamText`: starts from the
defaults `DEFAULT_MODEL` / `DEFAULT_PROVIDER.name` and maps over the
incoming messages, each user message overwriting the current model and
provider. Returns `(currentModel, currentProvider, processedMessages)`. -/
def preprocessMessages (extract : Msg → String × String × String)
    (defaultModel defaultProviderName : String) (messages : List Msg) :
    String × String × List Msg :=
  messages.foldl (preprocessStep extract) (defaultModel, defaultProviderName, [])

/-! ## System-prompt selection (`streamText`, lines 166-195) -/

/-- The chat modes of `stream-text.ts`. -/
inductive ChatMode where
  | discuss
  | build
  | patch
deriving DecidableEq, Repr

/-- The externally sourced prompt texts: the prompt-library lookup result
(`PromptLibrary.getPropmtFromLibrary`, which may be absent), the default
prompt (`getSystemPrompt()`), and `discussPrompt()`; their bodies live
outside the sources at hand and are carried as opaque strings. -/
structure PromptSources where
  libraryPrompt : Option String
  defaultPrompt : String
  discussPrompt : String

/-- The `switch (chatMode)` selecting the base system prompt: `patch` uses
`getPatchPrompt`, `discuss` uses `discussPrompt()`, and `build` or an
absent mode uses the library prompt with the default prompt as fallback. -/
def selectBaseSystemPrompt (chatMode : Option ChatMode) (ps : PromptSources)
    (modificationTagName cwd : String) : String :=
  match chatMode with
  | some .patch => getPatchPrompt modificationTagName cwd
  | some .discuss => ps.discussPrompt
  | _ =>
    match ps.libraryPrompt with
    | some s => s
    | none => ps.defaultPrompt

/-! ## Context buffer, summary, and truncation (`streamText`, lines 197-215) -/

/-- A file-map entry's details; only the lock flag is relevant here. -/
structure FileEntry where
  isLocked : Bool
deriving DecidableEq, Repr

/-- A JS `FileMap`: ordered entries of path against optional details. -/
abbrev FileMap := List (String × Option FileEntry)

/-- The fixed text wrapped around the rendered context buffer. -/
def contextBlock (codeContext : String) : String :=
  "\n\nBelow is the artifact containing the context loaded into context buffer for you to have knowledge of and might need changes to fullfill current user request.\nCONTEXT BUFFER:\n---\n" ++
  codeContext ++ "\n---"

/-- The fixed text wrapped around the chat summary. -/
def summaryBlock (summary : String) : String :=
  "\n\n_below is the chat history till now_\nCHAT SUMMARY:\n---\n" ++
  summary ++ "\n---"

/-- JS `chatMode === 'build' || chatMode === 'patch'`. -/
def isBuildOrPatch : Option ChatMode → Bool
  | some .build => true
  | some .patch => true
  | _ => false

/-- The `pop()`-then-rebuild step: keep only the most recent message
(an empty history stays empty). -/
def popLastSingleton (msgs : List Msg) : List Msg :=
  match msgs.getLast? with
  | some m => [m]
  | none => []

/-- Lines 198-215 of `streamText`: for `build`/`patch` with context files
and context optimization, append the context buffer; with a truthy summary
also append the summary block and truncate the history (JS truthiness:
an empty summary and a zero `messageSliceId` are falsy). The rendering
`createFilesContext` lives in `./utils` and is passed in. -/
def applyContextAndSummary (chatMode : Option ChatMode) (contextFiles : Option FileMap)
    (contextOptimization : Bool) (createFilesContext : FileMap → String)
    (summary : Option String) (messageSliceId : Option Nat)
    (systemPrompt : String) (processedMessages : List Msg) : String × List Msg :=
  match contextFiles with
  | none => (systemPrompt, processedMessages)
  | some cf =>
    if isBuildOrPatch chatMode && contextOptimization then
      let sp1 := systemPrompt ++ contextBlock (createFilesContext cf)
      match summary with
      | none => (sp1, processedMessages)
      | some s =>
        if s = "" then (sp1, processedMessages)
        else
          let sp2 := sp1 ++ summaryBlock s
          match messageSliceId with
          | some n => if n = 0 then (sp2, popLastSingleton processedMessages) else (sp2, processedMessages.drop n)
          | none => (sp2, popLastSingleton processedMessages)
    else (systemPrompt, processedMessages)

/-! ## Locked-file notice (`streamText`, lines 217-234) -/

/-- JS `fileDetails?.isLocked` as the entry filter. -/
def isLockedEntry : String × Option FileEntry → Bool
  | (_, some fd) => fd.isLocked
  | (_, none) => false

/-- The `Set` of locked file paths, in insertion (= enumeration) order. -/
def effectiveLockedFilePaths (files : FileMap) : List String :=
  files.foldl
    (fun acc e =>
      if isLockedEntry e then (if e.1 ∈ acc then acc else acc ++ [e.1]) else acc)
    []

/-- The `- path` lines joined by newlines. -/
def lockedFilesListString (paths : List String) : String :=
  String.intercalate "\n" (paths.map (fun p => "- " ++ p))

/-- The full locked-files block appended to the system prompt. -/
def lockedNotice (paths : List String) : String :=
  "\n\nIMPORTANT: The following files are locked and MUST NOT be modified in any way. Do not suggest or make any changes to these files. You can proceed with the request but DO NOT make any changes to these files specifically:\n" ++
  lockedFilesListString paths ++ "\n---"

/-- Lines 217-234 of `streamText`: append the locked-files notice when any
locked paths exist. -/
def applyLockedFiles (files : Option FileMap) (systemPrompt : String) : String :=
  let paths := match files with
    | some f => effectiveLockedFilePaths f
    | none => []
  if paths.isEmpty then systemPrompt else systemPrompt ++ lockedNotice paths

/-! ## The assembled request -/

/-- The `streamText` arguments relevant to prompt assembly. -/
structure StreamTextArgs where
  messages : List Msg
  files : Option FileMap
  contextOptimization : Bool
  contextFiles : Option FileMap
  summary : Option String
  messageSliceId : Option Nat
  chatMode : Option ChatMode

/-- The prompt-assembly pipeline of `streamText`, in source order:
preprocess messages, select the base system prompt, apply context buffer /
summary / truncation, append the locked-files notice. Returns
`(systemPrompt, processedMessages, currentModel, currentProvider)`. -/
def streamTextRequest (args : StreamTextArgs) (ps : PromptSources)
    (createFilesContext : FileMap → String)
    (extract : Msg → String × String × String)
    (defaultModel defaultProviderName modificationTagName cwd : String) :
    String × List Msg × String × String :=
  let pre := preprocessMessages extract defaultModel defaultProviderName args.messages
  let base := selectBaseSystemPrompt args.chatMode ps modificationTagName cwd
  let cs := applyContextAndSummary args.chatMode args.contextFiles args.contextOptimization
    createFilesContext args.summary args.messageSliceId base pre.2.2
  let finalPrompt := applyLockedFiles args.files cs.1
  (finalPrompt, cs.2, pre.1, pre.2.1)

/-! ## Provider/model resolution (`streamText`, lines 133-159) -/

/-- A model descriptor; `maxTokenAllowed` is an optional numeric field. -/
structure ModelInfo where
  name : String
  label : String
  provider : String
  maxTokenAllowed : Option Nat
deriving DecidableEq, Repr

/-- A provider as seen by the resolver: its name and static model list
(an absent `staticModels` field is the empty list, per
`provider.staticModels || []`). -/
structure ProviderInfo where
  name : String
  staticModels : List ModelInfo
deriving DecidableEq, Repr

/-- Modelled from the spec: `LLMManager.getInstance().getStaticModelListFromProvider`
is not among the sources at hand; per the spec's resolver algorithm
("Search the provider's static model list") it returns the provider's
static model list. -/
def getStaticModelListFromProvider (p : ProviderInfo) : List ModelInfo :=
  p.staticModels

/-- `PROVIDER_LIST.find((p) => p.name === currentProvider) || DEFAULT_PROVIDER`. -/
def resolveProvider (providerList : List ProviderInfo) (defaultProvider : ProviderInfo)
    (currentProvider : String) : ProviderInfo :=
  match providerList.find? (fun p => p.name == currentProvider) with
  | some p => p
  | none => defaultProvider

/-- Lines 134-159 of `streamText`: look up the model in the static list;
otherwise build the combined list (static ++ dynamically fetched), fail
when it is empty, re-search it, and fall back to its first entry. The
dynamically fetched list (`getModelListFromProvider`, an external
collaborator) is passed in. -/
def resolveModelDetails (provider : ProviderInfo) (dynamicModels : List ModelInfo)
    (currentModel : String) : Except String ModelInfo :=
  match (getStaticModelListFromProvider provider).find? (fun m => m.name == currentModel) with
  | some m => Except.ok m
  | none =>
    let modelsList := provider.staticModels ++ dynamicModels
    match modelsList with
    | [] => Except.error ("No models found for provider " ++ provider.name)
    | first :: _ =>
      match modelsList.find? (fun m => m.name == currentModel) with
      | some m => Except.ok m
      | none => Except.ok first

/-- Line 161 of `streamText`:
`modelDetails?.maxTokenAllowed || MAX_TOKENS` (JS `||`: an absent or zero
field falls back to the constant). -/
def dynamicMaxTokens (maxTokensConst : Nat) (maxTokenAllowed : Option Nat) : Nat :=
  match maxTokenAllowed with
  | some n => if n = 0 then maxTokensConst else n
  | none => maxTokensConst

/-! ## Persisted settings store (`lib/stores/settings`) -/

/-- `LOCAL_PROVIDERS` from the settings store. -/
def LOCAL_PROVIDERS : List String := ["OpenAILike", "LMStudio", "Ollama"]

/-- The user-editable `settings` sub-object of a provider config. -/
structure PSettings where
  enabled : Option Bool
  apiKey : Option String
  isConfigured : Option Bool
deriving DecidableEq, Repr

/-- A provider config entry as held in `providersStore`: the registry
fields (represented by the name) plus the `settings` sub-object. -/
structure IProviderConfigEntry where
  name : String
  settings : PSettings
deriving DecidableEq, Repr

/-- `getInitialProviderSettings`: build defaults from the provider list
(local providers disabled), then, when a stored string exists, parse it
and merge the `settings` of every parsed key that names a known provider;
a parse failure (`JSON.parse` throwing) logs an error and keeps the
defaults. Parsing is external; it is passed in, with `none` for malformed
JSON. Returns the settings map together with the emitted error log. -/
def getInitialProviderSettings (providerList : List String) (saved : Option String)
    (parse : String → Option (List (String × PSettings))) :
    List (String × IProviderConfigEntry) × List String :=
  let initialSettings : List (String × IProviderConfigEntry) :=
    providerList.map (fun n =>
      (n, ⟨n, ⟨some (!(LOCAL_PROVIDERS.contains n)), none, none⟩⟩))
  match saved with
  | none => (initialSettings, [])
  | some s =>
    match parse s with
    | none => (initialSettings, ["Error parsing provider settings:"])
    | some entries =>
      (entries.foldl
        (fun acc kv =>
          acc.map (fun e => if e.1 = kv.1 then (e.1, ⟨e.2.name, kv.2⟩) else e))
        initialSettings, [])

/-- A tab config record; only `id` and `window` matter here. -/
structure TabCfg where
  id : String
  window : String
deriving DecidableEq, Repr

/-- The two tab lists of `TabWindowConfig`. -/
structure TabWindowConfig where
  userTabs : List TabCfg
  developerTabs : List TabCfg
deriving DecidableEq, Repr

/-- `getInitialTabConfiguration`: defaults filtered from
`DEFAULT_TAB_CONFIG`; when a stored string exists, parse it and filter the
parsed `userTabs` / `developerTabs` by window; any failure inside the
`try` (malformed JSON included) returns the defaults without logging.
Returns the config together with the emitted error log. -/
def getInitialTabConfiguration (defaultTabConfig : List TabCfg) (saved : Option String)
    (parse : String → Option (List TabCfg × List TabCfg)) :
    TabWindowConfig × List String :=
  let defaultConfig : TabWindowConfig :=
    ⟨defaultTabConfig.filter (fun t => t.window == "user"),
     defaultTabConfig.filter (fun t => t.window == "developer")⟩
  match saved with
  | none => (defaultConfig, [])
  | some s =>
    match parse s with
    | none => (defaultConfig, [])
    | some parsed =>
      (⟨parsed.1.filter (fun t => t.window == "user"),
        parsed.2.filter (fun t => t.window == "developer")⟩, [])

/-! ## `settingsStore` and the `ModelSelector` operations -/

/-- A provider config as used by the selector: name, optional default
model, and its `models` list. -/
structure SelProvider where
  name : String
  defaultModel : Option String
  models : List ModelInfo
deriving DecidableEq, Repr

/-- The `settingsStore` state (`SettingsState`). -/
structure SettingsState where
  providers : List SelProvider
  models : List (String × List ModelInfo)
  selectedProvider : Option SelProvider
  selectedModel : String
deriving DecidableEq, Repr

/-- The initial `settingsStore` value: the stored provider name (falling
back to `PROVIDER_LIST[0]?.name || ''`) is looked up in the provider list
by exact name match; the stored model name falls back to
`PROVIDER_LIST[0]?.defaultModel || ''`. -/
def initialSettingsState (providerList : List SelProvider)
    (storedProviderName storedModelName : Option String) : SettingsState :=
  let selName := jsOrStr storedProviderName (jsOrStr (providerList.head?.map SelProvider.name) "")
  let selModel := jsOrStr storedModelName (jsOrStr (providerList.head?.bind SelProvider.defaultModel) "")
  { providers := providerList
    models := []
    selectedProvider := providerList.find? (fun p => p.name == selName)
    selectedModel := selModel }

/-- `handleProviderSelect` of `ModelSelector.tsx`: select the provider and
set the model to `provider.defaultModel || provider.models?.[0]?.name || ''`. -/
def handleProviderSelect (s : SettingsState) (p : SelProvider) : SettingsState :=
  { s with
    selectedProvider := some p
    selectedModel := jsOrStr p.defaultModel (jsOrStr (p.models.head?.map ModelInfo.name) "") }

/-- `handleModelSelect` of `ModelSelector.tsx`: set only the model name. -/
def handleModelSelect (s : SettingsState) (modelName : String) : SettingsState :=
  { s with selectedModel := modelName }

/-- A selector operation on the settings store. -/
inductive SettingsOp where
  | selectProvider (p : SelProvider)
  | selectModel (n : String)

/-- Apply one selector operation. -/
def applySettingsOp (s : SettingsState) : SettingsOp → SettingsState
  | .selectProvider p => handleProviderSelect s p
  | .selectModel n => handleModelSelect s n

/-- Run a sequence of selector operations. -/
def runSettingsOps (s : SettingsState) (ops : List SettingsOp) : SettingsState :=
  ops.foldl applySettingsOp s

/-! ## Helper lemmas on the string-scanning primitives -/

theorem matchesFront_iff (pat l : List Char) :
    matchesFront pat l = true ↔ ∃ t, l = pat ++ t := by
  induction pat generalizing l with
  | nil => simp [matchesFront]
  | cons p ps ih =>
    cases l with
    | nil => simp [matchesFront]
    | cons c cs =>
      simp only [matchesFront, Bool.and_eq_true, beq_iff_eq, ih, List.cons_append,
        List.cons.injEq]
      constructor
      · rintro ⟨rfl, t, rfl⟩
        exact ⟨t, rfl, rfl⟩
      · rintro ⟨t, rfl, rfl⟩
        exact ⟨rfl, t, rfl⟩

theorem splitAtPat_eq_none_iff (pat l : List Char) :
    splitAtPat pat l = none ↔ ¬ ∃ pre post, l = pre ++ pat ++ post := by
  induction l with
  | nil =>
    cases pat with
    | nil => simp [splitAtPat]
    | cons p ps =>
      simp only [splitAtPat, List.isEmpty_cons, if_false, Bool.false_eq_true, true_iff]
      rintro ⟨pre, post, h⟩
      have := congrArg List.length h
      simp at this
      omega
  | cons c rest ih =>
    by_cases hm : matchesFront pat (c :: rest) = true
    · obtain ⟨t, ht⟩ := (matchesFront_iff pat (c :: rest)).mp hm
      have hs : splitAtPat pat (c :: rest) = some ([], (c :: rest).drop pat.length) := by
        simp [splitAtPat, hm]
      rw [hs]
      exact iff_of_false (by simp) (not_not_intro ⟨[], t, by simpa using ht⟩)
    · have hs : splitAtPat pat (c :: rest) = (match splitAtPat pat rest with
          | some (b, a) => some (c :: b, a)
          | none => none) := by
        simp [splitAtPat, hm]
      rw [hs]
      have hsplit : (match splitAtPat pat rest with
          | some (b, a) => some (c :: b, a)
          | none => (none : Option (List Char × List Char))) = none ↔
          splitAtPat pat rest = none := by
        cases h : splitAtPat pat rest with
        | none => simp
        | some x => cases x; simp
      rw [hsplit, ih]
      constructor
      · rintro hno ⟨pre, post, hdec⟩
        cases pre with
        | nil =>
          exact hm ((matchesFront_iff pat (c :: rest)).mpr ⟨post, by simpa using hdec⟩)
        | cons x xs =>
          simp only [List.cons_append, List.cons.injEq] at hdec
          exact hno ⟨xs, post, hdec.2⟩
      · rintro hno ⟨pre, post, hdec⟩
        exact hno ⟨c :: pre, post, by simp [hdec]⟩

theorem splitAtPat_none_of_not_infix {pat l : List Char}
    (h : ¬ ∃ pre post, l = pre ++ pat ++ post) : splitAtPat pat l = none :=
  (splitAtPat_eq_none_iff pat l).mpr h

/-- An occurrence in a sub-segment lifts to an occurrence in the whole. -/
theorem splitAtPat_none_of_segment {pat l a b m : List Char}
    (hl : l = a ++ m ++ b) (h : splitAtPat pat l = none) :
    splitAtPat pat m = none := by
  rw [splitAtPat_eq_none_iff] at h ⊢
  rintro ⟨pre, post, rfl⟩
  exact h ⟨a ++ pre, post ++ b, by simp [hl]⟩

theorem replaceFirstBlockL_of_none {op cl repl l : List Char}
    (h : splitAtPat op l = none) : replaceFirstBlockL op cl repl l = l := by
  simp [replaceFirstBlockL, h]

theorem replaceAllBlocksAux_of_none {op cl repl : List Char} (fuel : Nat) {l : List Char}
    (h : splitAtPat op l = none) : replaceAllBlocksAux op cl repl fuel l = l := by
  cases fuel with
  | zero => rfl
  | succ n => simp [replaceAllBlocksAux, h]

theorem replaceFirstBlock_of_none {s op cl repl : String}
    (h : splitAtPat op.data s.data = none) : replaceFirstBlock s op cl repl = s := by
  simp [replaceFirstBlock, replaceFirstBlockL_of_none h]

theorem replaceAllBlocks_of_none {s op cl repl : String}
    (h : splitAtPat op.data s.data = none) : replaceAllBlocks s op cl repl = s := by
  simp [replaceAllBlocks, replaceAllBlocksL, replaceAllBlocksAux_of_none _ h]

/-! ## Helper lemmas on trimming -/

theorem head?_dropWhile_not (p : Char → Bool) (l : List Char) {a : Char}
    (h : (l.dropWhile p).head? = some a) : p a = false := by
  induction l with
  | nil => simp at h
  | cons c rest ih =>
    rw [List.dropWhile_cons] at h
    by_cases hc : p c = true
    · exact ih (by simpa [hc] using h)
    · rw [if_neg (by simp [hc])] at h
      simp only [List.head?_cons, Option.some.injEq] at h
      subst h
      simpa using hc

theorem dropWhile_eq_self_of_head {p : Char → Bool} {l : List Char} {a : Char}
    (hh : l.head? = some a) (ha : p a = false) : l.dropWhile p = l := by
  cases l with
  | nil => simp at hh
  | cons c rest =>
    simp only [List.head?_cons, Option.some.injEq] at hh
    subst hh
    simp [List.dropWhile_cons, ha]

theorem getLast?_dropWhile (p : Char → Bool) (l : List Char)
    (h : l.dropWhile p ≠ []) : (l.dropWhile p).getLast? = l.getLast? := by
  obtain ⟨t, ht⟩ := List.dropWhile_suffix (l := l) p
  conv_rhs => rw [← ht]
  rw [List.getLast?_append]
  cases hd : (l.dropWhile p).getLast? with
  | none => exact absurd (List.getLast?_eq_none_iff.mp hd) h
  | some x => rfl

theorem trimChars_idem (l : List Char) : trimChars (trimChars l) = trimChars l := by
  unfold trimChars
  set u := l.dropWhile isWS with hu
  set v := u.reverse.dropWhile isWS with hv
  by_cases hvnil : v = []
  · simp [hvnil]
  · have hunil : u ≠ [] := by
      intro h
      apply hvnil
      rw [hv, h]
      simp
    obtain ⟨b, hbu⟩ : ∃ b, u.head? = some b := by
      cases hc : u.head? with
      | none => exact absurd (List.head?_eq_none_iff.mp hc) hunil
      | some x => exact ⟨x, rfl⟩
    have hbws : isWS b = false := head?_dropWhile_not isWS l (hu ▸ hbu)
    have h1 : v.reverse.head? = some b := by
      rw [List.head?_reverse, getLast?_dropWhile _ _ (hv ▸ hvnil), List.getLast?_reverse]
      exact hbu
    have hstep1 : v.reverse.dropWhile isWS = v.reverse := dropWhile_eq_self_of_head h1 hbws
    rw [hstep1, List.reverse_reverse]
    obtain ⟨c, hcv⟩ : ∃ c, v.head? = some c := by
      cases hc : v.head? with
      | none => exact absurd (List.head?_eq_none_iff.mp hc) hvnil
      | some x => exact ⟨x, rfl⟩
    have hcws : isWS c = false := head?_dropWhile_not isWS u.reverse (hv ▸ hcv)
    rw [dropWhile_eq_self_of_head hcv hcws]

/-- `trimChars l` is a contiguous segment of `l`. -/
theorem trimChars_segment (l : List Char) : ∃ a b, l = a ++ trimChars l ++ b := by
  obtain ⟨t, ht⟩ := List.dropWhile_suffix (l := l) isWS
  obtain ⟨t2, ht2⟩ := List.dropWhile_suffix (l := (l.dropWhile isWS).reverse) isWS
  refine ⟨t, t2.reverse, ?_⟩
  have hkey : l.dropWhile isWS = trimChars l ++ t2.reverse := by
    have h := congrArg List.reverse ht2
    simpa [trimChars] using h.symm
  calc l = t ++ l.dropWhile isWS := ht.symm
    _ = t ++ (trimChars l ++ t2.reverse) := by rw [hkey]
    _ = t ++ trimChars l ++ t2.reverse := by rw [List.append_assoc]

/-- All three marker-removal passes leave a string free of the opening
markers unchanged, so processing reduces to trimming. -/
theorem processAssistantContent_of_clean {content : String}
    (h1 : splitAtPat boltThoughtOpen.data content.data = none)
    (h2 : splitAtPat thinkOpen.data content.data = none)
    (h3 : splitAtPat packageLockOpen.data content.data = none) :
    processAssistantContent content = trimS content := by
  show trimS (replaceAllBlocks (replaceFirstBlock (replaceFirstBlock content
    boltThoughtOpen boltThoughtClose "") thinkOpen thinkClose "")
    packageLockOpen packageLockClose packageLockPlaceholder) = trimS content
  rw [replaceFirstBlock_of_none h1, replaceFirstBlock_of_none h2,
    replaceAllBlocks_of_none h3]

/-! ## Helper lemmas on the locked-path set -/

theorem effectiveLockedFilePaths_go (f : FileMap) (acc : List String)
    (hdisj : ∀ p ∈ (f.filter isLockedEntry).map Prod.fst, p ∉ acc)
    (hnd : (f.map Prod.fst).Nodup) :
    f.foldl
      (fun acc e =>
        if isLockedEntry e then (if e.1 ∈ acc then acc else acc ++ [e.1]) else acc)
      acc = acc ++ (f.filter isLockedEntry).map Prod.fst := by
  induction f generalizing acc with
  | nil => simp
  | cons e es ih =>
    rw [List.map_cons, List.nodup_cons] at hnd
    by_cases hl : isLockedEntry e = true
    · have he1 : e.1 ∈ ((e :: es).filter isLockedEntry).map Prod.fst := by
        simp [List.filter_cons, hl]
      have hnotacc : e.1 ∉ acc := hdisj e.1 he1
      have hstep : (if isLockedEntry e then (if e.1 ∈ acc then acc else acc ++ [e.1]) else acc)
          = acc ++ [e.1] := by
        simp [hl, hnotacc]
      rw [List.foldl_cons, hstep, ih (acc ++ [e.1])]
      · simp [List.filter_cons, hl]
      · intro p hp
        obtain ⟨e2, he2, rfl⟩ := List.mem_map.mp hp
        have hpes : e2.1 ∈ es.map Prod.fst :=
          List.mem_map_of_mem Prod.fst (List.mem_of_mem_filter he2)
        simp only [List.mem_append, List.mem_singleton, not_or]
        refine ⟨hdisj e2.1 ?_, ?_⟩
        · rw [List.filter_cons_of_pos hl]
          exact List.mem_map_of_mem Prod.fst (List.mem_cons_of_mem e he2)
        intro hpe
        exact hnd.1 (hpe ▸ hpes)
      · exact hnd.2
    · have hstep : (if isLockedEntry e then (if e.1 ∈ acc then acc else acc ++ [e.1]) else acc)
          = acc := by simp [hl]
      rw [List.foldl_cons, hstep, ih acc]
      · simp [List.filter_cons, hl]
      · intro p hp
        exact hdisj p (by simp [List.filter_cons, hl, hp])
      · exact hnd.2

/-- With distinct keys (as in a JS object), the deduplicating `Set`
traversal is the plain filter of locked entries, in enumeration order. -/
theorem effectiveLockedFilePaths_eq (f : FileMap) (hnd : (f.map Prod.fst).Nodup) :
    effectiveLockedFilePaths f = (f.filter isLockedEntry).map Prod.fst := by
  have h := effectiveLockedFilePaths_go f [] (by simp) hnd
  simpa [effectiveLockedFilePaths] using h

/-! ## Helper lemma on the message-preprocessing fold -/

theorem preprocess_components (extract : Msg → String × String × String)
    (acc : String × String × List Msg) (msgs : List Msg) :
    ((msgs.foldl (preprocessStep extract) acc).1,
     (msgs.foldl (preprocessStep extract) acc).2.1) =
      match msgs.reverse.find? (fun m => m.role == Role.user) with
      | some u => ((extract u).1, (extract u).2.1)
      | none => (acc.1, acc.2.1) := by
  induction msgs generalizing acc with
  | nil => simp
  | cons m rest ih =>
    rw [List.foldl_cons, ih (preprocessStep extract acc m), List.reverse_cons,
      List.find?_append]
    cases hfind : rest.reverse.find? (fun m => m.role == Role.user) with
    | some u => simp [Option.or]
    | none =>
      cases hrole : m.role with
      | user =>
        have : (fun m => m.role == Role.user) m = true := by simp [hrole]
        simp [Option.or, List.find?_cons, this, preprocessStep, hrole]
      | assistant =>
        have : (fun m => m.role == Role.user) m = false := by simp [hrole]
        simp [Option.or, List.find?_cons, this, preprocessStep, hrole]
      | system =>
        have : (fun m => m.role == Role.user) m = false := by simp [hrole]
        simp [Option.or, List.find?_cons, this, preprocessStep, hrole]

/-! ## Helper lemma on the settings operations -/

theorem runSettingsOps_isSome (ops : List SettingsOp) (s : SettingsState)
    (h : s.selectedProvider.isSome = true) :
    (runSettingsOps s ops).selectedProvider.isSome = true := by
  induction ops generalizing s with
  | nil => exact h
  | cons op rest ih =>
    show (runSettingsOps (applySettingsOp s op) rest).selectedProvider.isSome = true
    apply ih
    cases op with
    | selectProvider p => rfl
    | selectModel n => exact h

/-! ## Claim theorems -/

/-- C1: when the requested model name is absent from the resolved
provider's combined model list (static ++ dynamically fetched),
`streamText`'s resolution fails with a "no models found" error naming that
provider when the combined list is empty, and otherwise resolves to the
first entry of the combined list without failing. -/
theorem c1_resolver_fallback (provider : ProviderInfo) (dynamicModels : List ModelInfo)
    (currentModel : String)
    (habs : ∀ m ∈ provider.staticModels ++ dynamicModels, m.name ≠ currentModel) :
    (provider.staticModels ++ dynamicModels = [] →
      resolveModelDetails provider dynamicModels currentModel =
        Except.error ("No models found for provider " ++ provider.name))
    ∧ (∀ first rest, provider.staticModels ++ dynamicModels = first :: rest →
      resolveModelDetails provider dynamicModels currentModel = Except.ok first) := by
  have hstatic : provider.staticModels.find? (fun m => m.name == currentModel) = none := by
    rw [List.find?_eq_none]
    intro m hm
    simpa using habs m (List.mem_append_left _ hm)
  have hcombined :
      (provider.staticModels ++ dynamicModels).find? (fun m => m.name == currentModel)
        = none := by
    rw [List.find?_eq_none]
    intro m hm
    simpa using habs m hm
  constructor
  · intro hnil
    simp only [resolveModelDetails, getStaticModelListFromProvider, hstatic, hnil]
  · intro first rest hcons
    rw [hcons] at hcombined
    simp only [resolveModelDetails, getStaticModelListFromProvider, hstatic, hcons, hcombined]

/-- C1 witness: a model name found nowhere resolves to the first combined
entry; an empty combined list produces the provider-naming error. -/
theorem c1_resolver_fallback_witness :
    resolveModelDetails ⟨"Anthropic", []⟩ [⟨"claude", "Claude", "Anthropic", none⟩] "gpt"
      = Except.ok ⟨"claude", "Claude", "Anthropic", none⟩
    ∧ resolveModelDetails ⟨"Empty", []⟩ [] "gpt"
      = Except.error "No models found for provider Empty" :=
  ⟨(c1_resolver_fallback ⟨"Anthropic", []⟩ [⟨"claude", "Claude", "Anthropic", none⟩] "gpt"
      (by decide)).2 ⟨"claude", "Claude", "Anthropic", none⟩ [] rfl,
   (c1_resolver_fallback ⟨"Empty", []⟩ [] "gpt" (by decide)).1 rfl⟩

/-- C2 counterexample: at the initial (hence reachable) store state, when
the persisted provider name matches no provider in the list, no provider
is selected at all — "exactly one provider is selected" fails. -/
theorem c2_selection_invariant_counterexample :
    (initialSettingsState [⟨"A", some "mA", []⟩] (some "B") none).selectedProvider
      = none := by
  rfl

/-- C2 amended: when initialization does find a provider, every state
reachable by selector operations keeps a selected provider; provider
selection sets the model to the provider's default model, else its first
listed model's name, else the empty string, and model selection sets only
the model — membership of the selected model in the provider's model list
is not enforced. -/
theorem c2_selection_invariant_amended (s : SettingsState)
    (h : s.selectedProvider.isSome = true) (ops : List SettingsOp) :
    (runSettingsOps s ops).selectedProvider.isSome = true
    ∧ (∀ p, (handleProviderSelect s p).selectedProvider = some p
        ∧ (handleProviderSelect s p).selectedModel =
            jsOrStr p.defaultModel (jsOrStr (p.models.head?.map ModelInfo.name) ""))
    ∧ (∀ n, (handleModelSelect s n).selectedModel = n
        ∧ (handleModelSelect s n).selectedProvider = s.selectedProvider) := by
  refine ⟨runSettingsOps_isSome ops s h, ?_, ?_⟩
  · intro p
    exact ⟨rfl, rfl⟩
  · intro n
    exact ⟨rfl, rfl⟩

/-- C2 witness: the amended invariant at a concrete initial state and
operation sequence. -/
theorem c2_selection_invariant_amended_witness :
    (runSettingsOps (initialSettingsState [⟨"A", some "mA", []⟩] none none)
      [SettingsOp.selectModel "other",
       SettingsOp.selectProvider ⟨"A", some "mA", []⟩]).selectedProvider.isSome = true :=
  (c2_selection_invariant_amended (initialSettingsState [⟨"A", some "mA", []⟩] none none)
    (by decide)
    [SettingsOp.selectModel "other", SettingsOp.selectProvider ⟨"A", some "mA", []⟩]).1

/-- C8 counterexample: for a malformed tab-configuration string the code
substitutes the defaults but logs nothing, contradicting "the error is
logged". -/
theorem c8_settings_recovery_counterexample :
    (getInitialTabConfiguration [] (some "not json") (fun _ => none)).2 = []
    ∧ (getInitialTabConfiguration [] (some "not json") (fun _ => none)).1 = ⟨[], []⟩ := by
  exact ⟨rfl, rfl⟩

/-- C8 amended: on malformed persisted JSON both initializers substitute
their default value and continue; the provider-settings initializer logs a
parse error, while the tab-configuration initializer recovers silently. -/
theorem c8_settings_recovery_amended (providerList : List String)
    (defaultTabConfig : List TabCfg) (saved : String)
    (parseP : String → Option (List (String × PSettings)))
    (parseT : String → Option (List TabCfg × List TabCfg))
    (hP : parseP saved = none) (hT : parseT saved = none) :
    getInitialProviderSettings providerList (some saved) parseP =
      ((getInitialProviderSettings providerList none parseP).1,
        ["Error parsing provider settings:"])
    ∧ getInitialTabConfiguration defaultTabConfig (some saved) parseT =
      ((getInitialTabConfiguration defaultTabConfig none parseT).1, []) := by
  constructor
  · simp [getInitialProviderSettings, hP]
  · simp [getInitialTabConfiguration, hT]

/-- C8 witness: the amended recovery behaviour at concrete inputs. -/
theorem c8_settings_recovery_amended_witness :
    getInitialProviderSettings ["Ollama"] (some "not json") (fun _ => none) =
      ((getInitialProviderSettings ["Ollama"] none (fun _ => none)).1,
        ["Error parsing provider settings:"])
    ∧ getInitialTabConfiguration [⟨"t1", "user"⟩] (some "not json") (fun _ => none) =
      ((getInitialTabConfiguration [⟨"t1", "user"⟩] none (fun _ => none)).1, []) :=
  c8_settings_recovery_amended ["Ollama"] [⟨"t1", "user"⟩] "not json"
    (fun _ => none) (fun _ => none) rfl rfl

/-- C9: the model and provider names produced by the preprocessing loop
are the directives extracted from the last user message, and the
configured defaults when no user message exists. -/
theorem c9_last_user_directives (args : StreamTextArgs) (ps : PromptSources)
    (cfc : FileMap → String) (extract : Msg → String × String × String)
    (defaultModel defaultProviderName modificationTagName cwd : String) :
    (streamTextRequest args ps cfc extract defaultModel defaultProviderName
        modificationTagName cwd).2.2 =
      match args.messages.reverse.find? (fun m => m.role == Role.user) with
      | some u => ((extract u).1, (extract u).2.1)
      | none => (defaultModel, defaultProviderName) := by
  exact preprocess_components extract (defaultModel, defaultProviderName, []) args.messages

/-- C10: the token cap is the resolved model's `maxTokenAllowed` when
present and non-zero, and the `MAX_TOKENS` constant otherwise. -/
theorem c10_token_cap (maxTokensConst : Nat) (modelDetails : ModelInfo) :
    (∀ n, modelDetails.maxTokenAllowed = some n → n ≠ 0 →
      dynamicMaxTokens maxTokensConst modelDetails.maxTokenAllowed = n)
    ∧ ((modelDetails.maxTokenAllowed = none ∨ modelDetails.maxTokenAllowed = some 0) →
      dynamicMaxTokens maxTokensConst modelDetails.maxTokenAllowed = maxTokensConst) := by
  constructor
  · intro n hn hnz
    rw [hn]
    simp [dynamicMaxTokens, hnz]
  · rintro (h | h) <;> rw [h] <;> simp [dynamicMaxTokens]

/-- C10 witness: a present non-zero allowance is used; an absent one falls
back to the constant. -/
theorem c10_token_cap_witness :
    dynamicMaxTokens 8000 (ModelInfo.mk "m" "M" "P" (some 4096)).maxTokenAllowed = 4096
    ∧ dynamicMaxTokens 8000 (ModelInfo.mk "m" "M" "P" none).maxTokenAllowed = 8000 :=
  ⟨(c10_token_cap 8000 ⟨"m", "M", "P", some 4096⟩).1 4096 rfl (by decide),
   (c10_token_cap 8000 ⟨"m", "M", "P", none⟩).2 (Or.inl rfl)⟩

set_option maxRecDepth 100000

/-- C3 counterexample: for the representative tag name the patch prompt
does not contain exactly one occurrence of the opening modification tag —
rule 4 of the prompt text contains a second one. -/
theorem c3_patch_prompt_tag_counterexample :
    ¬ countOccurrences (getPatchPrompt "modifications" "/home/project")
        "<modifications>" = 1 := by
  decide

/-- C3 amended: the patch prompt contains exactly two occurrences of the
opening modification tag (one in rule 4's prose, one opening the example)
and exactly one occurrence of the closing tag. -/
theorem c3_patch_prompt_tag_amended :
    countOccurrences (getPatchPrompt "modifications" "/home/project")
        "<modifications>" = 2
    ∧ countOccurrences (getPatchPrompt "modifications" "/home/project")
        "</modifications>" = 1 := by
  constructor <;> decide

/-- C4: for every chat mode and input with at least one locked file, the
"do not modify" notice is the last block appended to the system prompt,
and it lists exactly the locked file paths, each once, in enumeration
order of the files map. -/
theorem c4_locked_notice_last (args : StreamTextArgs) (ps : PromptSources)
    (cfc : FileMap → String) (extract : Msg → String × String × String)
    (defaultModel defaultProviderName modificationTagName cwd : String)
    (f : FileMap) (hf : args.files = some f)
    (hnd : (f.map Prod.fst).Nodup)
    (hne : effectiveLockedFilePaths f ≠ []) :
    (streamTextRequest args ps cfc extract defaultModel defaultProviderName
        modificationTagName cwd).1 =
      (applyContextAndSummary args.chatMode args.contextFiles args.contextOptimization cfc
        args.summary args.messageSliceId
        (selectBaseSystemPrompt args.chatMode ps modificationTagName cwd)
        (preprocessMessages extract defaultModel defaultProviderName args.messages).2.2).1
      ++ lockedNotice (effectiveLockedFilePaths f)
    ∧ effectiveLockedFilePaths f = (f.filter isLockedEntry).map Prod.fst
    ∧ (effectiveLockedFilePaths f).Nodup := by
  refine ⟨?_, effectiveLockedFilePaths_eq f hnd, ?_⟩
  · have hfalse : (effectiveLockedFilePaths f).isEmpty = false :=
      List.isEmpty_eq_false.mpr hne
    show applyLockedFiles args.files (applyContextAndSummary args.chatMode args.contextFiles
      args.contextOptimization cfc args.summary args.messageSliceId
      (selectBaseSystemPrompt args.chatMode ps modificationTagName cwd)
      (preprocessMessages extract defaultModel defaultProviderName args.messages).2.2).1 = _
    rw [hf]
    simp [applyLockedFiles, hfalse]
  · rw [effectiveLockedFilePaths_eq f hnd]
    exact List.Nodup.sublist (List.Sublist.map Prod.fst (List.filter_sublist f)) hnd

/-- C4 witness: a concrete single locked file satisfies the hypotheses and
yields a duplicate-free locked-path list. -/
theorem c4_locked_notice_last_witness :
    (([("a.ts", (some ⟨true⟩ : Option FileEntry))] : FileMap).map Prod.fst).Nodup
    ∧ (effectiveLockedFilePaths [("a.ts", some ⟨true⟩)]).Nodup :=
  ⟨by decide,
   (c4_locked_notice_last
      ⟨[], some [("a.ts", some ⟨true⟩)], false, none, none, none, none⟩
      ⟨none, "D", "X"⟩ (fun _ => "") (fun _ => ("", "", "")) "dm" "dp" "tag" "/home/project"
      [("a.ts", some ⟨true⟩)] rfl (by decide) (by decide)).2.2⟩

/-- C5 counterexample: with a caller-specified `messageSliceId` of `0`
(and context optimization, context files and a summary present), the code
keeps only the most recent message, whereas the claim's slice from index
`0` would keep the whole history. -/
theorem c5_context_truncation_counterexample :
    (streamTextRequest
      ⟨[⟨Role.system, "m1"⟩, ⟨Role.system, "m2"⟩], none, true,
        some [("a.ts", some ⟨false⟩)], some "s", some 0, some ChatMode.build⟩
      ⟨none, "D", "X"⟩ (fun _ => "CTX") (fun _ => ("", "", ""))
      "dm" "dp" "tag" "/home/project").2.1 = [⟨Role.system, "m2"⟩]
    ∧ ([⟨Role.system, "m1"⟩, ⟨Role.system, "m2"⟩] : List Msg).drop 0
        ≠ [⟨Role.system, "m2"⟩] := by
  constructor
  · rfl
  · decide

/-- C5 amended: for `build`/`patch` with context optimization and context
files, the context buffer is appended; a non-empty summary additionally
appends the summary block and truncates the history to the slice at a
non-zero `messageSliceId`, and to only the most recent message when the
slice index is absent or zero; `discuss` mode, absent context files or
disabled optimization leave prompt and history unchanged. -/
theorem c5_context_truncation_amended (chatMode : Option ChatMode)
    (contextFiles : Option FileMap) (contextOptimization : Bool)
    (cfc : FileMap → String) (summary : Option String)
    (messageSliceId : Option Nat) (sp : String) (msgs : List Msg) :
    (isBuildOrPatch chatMode = false ∨ contextFiles = none ∨ contextOptimization = false →
      applyContextAndSummary chatMode contextFiles contextOptimization cfc summary
        messageSliceId sp msgs = (sp, msgs))
    ∧ (∀ cf, contextFiles = some cf → contextOptimization = true →
        isBuildOrPatch chatMode = true →
        ((summary = none ∨ summary = some "") →
          applyContextAndSummary chatMode contextFiles contextOptimization cfc summary
            messageSliceId sp msgs = (sp ++ contextBlock (cfc cf), msgs))
        ∧ (∀ s, summary = some s → s ≠ "" →
          applyContextAndSummary chatMode contextFiles contextOptimization cfc summary
            messageSliceId sp msgs =
            (sp ++ contextBlock (cfc cf) ++ summaryBlock s,
              match messageSliceId with
              | some n => if n = 0 then popLastSingleton msgs else msgs.drop n
              | none => popLastSingleton msgs))) := by
  constructor
  · rintro (h | h | h)
    · cases contextFiles with
      | none => rfl
      | some cf => simp [applyContextAndSummary, h]
    · subst h
      rfl
    · cases contextFiles with
      | none => rfl
      | some cf => simp [applyContextAndSummary, h]
  · rintro cf rfl rfl hb
    constructor
    · rintro (rfl | rfl) <;> simp [applyContextAndSummary, hb]
    · rintro s rfl hs
      cases messageSliceId with
      | none => simp [applyContextAndSummary, hb, hs]
      | some n =>
        by_cases hn : n = 0
        · subst hn
          simp [applyContextAndSummary, hb, hs]
        · simp [applyContextAndSummary, hb, hs, hn]

/-- C5 witness: the amended characterization at concrete inputs — discuss
mode is untouched, and a zero slice id with a summary keeps only the last
message. -/
theorem c5_context_truncation_amended_witness :
    applyContextAndSummary (some ChatMode.discuss) (some [("a.ts", none)]) true
      (fun _ => "C") (some "s") none "SP" [] = ("SP", []) :=
  (c5_context_truncation_amended (some ChatMode.discuss) (some [("a.ts", none)]) true
    (fun _ => "C") (some "s") none "SP" []).1 (Or.inl rfl)

/-- C6 counterexample: an assistant message with two think blocks keeps
its second block — the preprocessor does not remove all thought markup. -/
theorem c6_preprocessor_counterexample :
    preprocessMessages (fun _ => ("", "", "")) "dm" "dp"
        [⟨Role.assistant, "<think>a</think>x<think>b</think>"⟩] =
      ("dm", "dp", [⟨Role.assistant, "x<think>b</think>"⟩])
    ∧ (splitAtPat thinkOpen.data ("x<think>b</think>" : String).data).isSome = true := by
  constructor
  · rfl
  · rfl

/-- C6 amended: the preprocessor removes only the first thought-div block
and the first think block of an assistant message, collapses package-lock
blocks and trims; assistant content free of all three opening markers is
only trimmed; non-user, non-assistant messages pass through unchanged. -/
theorem c6_preprocessor_amended (extract : Msg → String × String × String)
    (acc : String × String × List Msg) (m : Msg) :
    (m.role = Role.system →
      preprocessStep extract acc m = (acc.1, acc.2.1, acc.2.2 ++ [m]))
    ∧ (m.role = Role.assistant →
        preprocessStep extract acc m =
          (acc.1, acc.2.1, acc.2.2 ++ [⟨Role.assistant, processAssistantContent m.content⟩])
        ∧ (splitAtPat boltThoughtOpen.data m.content.data = none →
           splitAtPat thinkOpen.data m.content.data = none →
           splitAtPat packageLockOpen.data m.content.data = none →
           processAssistantContent m.content = trimS m.content)) := by
  constructor
  · intro h
    cases m with
    | mk role content =>
      cases h
      rfl
  · intro h
    refine ⟨?_, processAssistantContent_of_clean⟩
    cases m with
    | mk role content =>
      cases h
      rfl

/-- C6 witness: pass-through and clean-content trimming at concrete
messages. -/
theorem c6_preprocessor_amended_witness :
    processAssistantContent "hello" = trimS "hello" :=
  ((c6_preprocessor_amended (fun _ => ("", "", "")) ("", "", [])
      ⟨Role.assistant, "hello"⟩).2 rfl).2 (by decide) (by decide) (by decide)

/-- C7: the assistant transformation is idempotent on content free of the
thought-div, think and package-lock markers — reprocessing a processed
such message yields byte-identical content. -/
theorem c7_preprocessor_idempotent (m : Msg) (_hrole : m.role = Role.assistant)
    (h1 : splitAtPat boltThoughtOpen.data m.content.data = none)
    (h2 : splitAtPat thinkOpen.data m.content.data = none)
    (h3 : splitAtPat packageLockOpen.data m.content.data = none) :
    processAssistantContent (processAssistantContent m.content) =
      processAssistantContent m.content := by
  have hp : processAssistantContent m.content = trimS m.content :=
    processAssistantContent_of_clean h1 h2 h3
  obtain ⟨a, b, hab⟩ := trimChars_segment m.content.data
  have h1t : splitAtPat boltThoughtOpen.data (trimS m.content).data = none :=
    splitAtPat_none_of_segment hab h1
  have h2t : splitAtPat thinkOpen.data (trimS m.content).data = none :=
    splitAtPat_none_of_segment hab h2
  have h3t : splitAtPat packageLockOpen.data (trimS m.content).data = none :=
    splitAtPat_none_of_segment hab h3
  rw [hp, processAssistantContent_of_clean h1t h2t h3t]
  show String.mk (trimChars (trimChars m.content.data)) = String.mk (trimChars m.content.data)
  rw [trimChars_idem]

/-- C7 witness: reprocessing a marker-free assistant message is the
identity on its processed content. -/
theorem c7_preprocessor_idempotent_witness :
    processAssistantContent (processAssistantContent "  hello  ") =
      processAssistantContent "  hello  " :=
  c7_preprocessor_idempotent ⟨Role.assistant, "  hello  "⟩ rfl
    (by decide) (by decide) (by decide)

end Bolt
